import Mathlib

/-!
Verification of the transactional scaffolding pipeline of
`shopify-cli-extensions` (`create/create.go`, `main.go`).

Go values are embedded shallowly: `map[string]string` becomes an
association list `List (String × String)`, byte strings become `String`
or `List Char`, fallible Go functions return `Except String` or a
result paired with `Option String` (the Go `error`).  The filesystem is
an association list from path to file content; `fsutils` primitives,
whose source is not part of this checkout, are modelled from the spec
and marked as such.
-/

namespace ShopifyScaffold

/-! ## Association lists: the model of Go `map[string]string` -/

/-- Lookup in an association list (first binding wins). -/
def lookupAL : List (String × String) → String → Option String
  | [], _ => none
  | (k, v) :: rest, key => if k = key then some v else lookupAL rest key

/-- Go map assignment `m[k] = v`: replace the binding of `k` if present,
otherwise add a new binding. -/
def insertAL : List (String × String) → String → String → List (String × String)
  | [], k, v => [(k, v)]
  | (k1, v1) :: rest, k, v =>
    if k1 = k then (k, v) :: rest else (k1, v1) :: insertAL rest k v

/-! ## Byte-string helpers (Go `strings` package on `List Char`) -/

/-- `strings.Contains s pat`: does `pat` occur as a contiguous substring? -/
def containsSub : List Char → List Char → Bool
  | [], pat => pat.isEmpty
  | s@(_ :: rest), pat => pat.isPrefixOf s || containsSub rest pat

/-- `strings.Replace s pat rep 1`: replace the first occurrence of `pat`
in `s` by `rep`, leaving the remainder untouched. -/
def replaceFirst : List Char → List Char → List Char → List Char
  | [], pat, rep => if pat.isEmpty then rep else []
  | c :: cs, pat, rep =>
    if pat.isPrefixOf (c :: cs) then rep ++ (c :: cs).drop pat.length
    else c :: replaceFirst cs pat rep

/-- `filepath.Join a b` for the non-empty relative paths this pipeline uses. -/
def joinPath (a b : String) : String := a ++ "/" ++ b

/-! ## `core.Extension` and the `project` wrapper (`create.go`) -/

/-- The fields of `core.Extension` consumed by the scaffolder:
`Type`, `Development.Renderer.Name`, `Development.Template`,
`Development.RootDir`, `Development.BuildDir`, `Development.Entries`. -/
structure Extension where
  type_ : String
  rendererName : String
  template : String
  rootDir : String
  buildDir : String
  entries : List (String × String)
  deriving DecidableEq, Repr

/-- `project` from `create.go`: embeds the extension and caches
`FormattedType`, `React`, `TypeScript`. -/
structure Project where
  ext : Extension
  formattedType : String
  react : Bool
  typescript : Bool
  deriving DecidableEq, Repr

/-- The `project` literal built by `NewExtensionProject`: `React` and
`TypeScript` are derived by substring containment of `"react"` /
`"typescript"` in the template id. -/
def newProject (e : Extension) : Project :=
  { ext := e
    formattedType := e.type_.toUpper
    react := containsSub e.template.toList "react".toList
    typescript := containsSub e.template.toList "typescript".toList }

/-- `getMainFileName` from `create.go`. -/
def getMainFileName (p : Project) : String :=
  if p.react && p.typescript then "index.tsx"
  else if p.typescript then "index.ts"
  else "index.js"

/-- `getMainTemplate` from `create.go`. -/
def getMainTemplate (p : Project) : String :=
  if p.react then "react.js" else "javascript.js"

/-! ## The `Task` / `Process` engine (`create.go`) -/

/-- A `Task` as in `create.go`: a forward action and a compensating
action.  Both transform the ambient state `σ` (the Go closures mutate
the real filesystem and the shared `project`) and report a Go `error`
as `Option String`. -/
structure Task (σ : Type) where
  run : σ → σ × Option String
  undo : σ → σ × Option String

/-- Index of the last `"fail"` entry of the status slice: the index at
which the reverse scan of `Process.Undo` stops. -/
def lastFailIdx : List String → Option Nat
  | [] => none
  | x :: xs =>
    match lastFailIdx xs with
    | some i => some (i + 1)
    | none => if x = "fail" then some 0 else none

/-- `Process.Undo` from `create.go`: scan the status slice from the
highest index downwards; at the first `"fail"` entry, invoke that
task's `Undo` and return its result.  Tasks marked `"success"` are
never visited. -/
def processUndo (tasks : List (Task σ)) (status : List String) (s : σ) :
    σ × Option String :=
  match lastFailIdx status with
  | some i =>
    match tasks[i]? with
    | some t => t.undo s
    | none => (s, none)
  | none => (s, none)

/-- The loop of `Process.Run`: `all` is the full task list (needed by
`Process.Undo`), `k` the index of the next task, `status` the status
slice.  On a task failure the task is marked `"fail"`, `Process.Undo`
runs (its own error is only printed, hence discarded here), and the
task's error is returned. -/
def processRunAux (all : List (Task σ)) :
    List (Task σ) → Nat → List String → σ → σ × Option String
  | [], _, _, s => (s, none)
  | t :: ts, k, status, s =>
    match t.run s with
    | (s1, none) => processRunAux all ts (k + 1) (status.set k "success") s1
    | (s1, some e) => ((processUndo all (status.set k "fail") s1).1, some e)

/-- `Process.Run` from `create.go`: run the tasks in order over an
initially all-pending status slice. -/
def processRun (tasks : List (Task σ)) (s : σ) : σ × Option String :=
  processRunAux tasks tasks 0 (List.replicate tasks.length "") s

/-- Pure success-path semantics: the state reached by running every
task in order, `none` if any task errors. -/
def runsOk : List (Task σ) → σ → Option σ
  | [], s => some s
  | t :: ts, s =>
    match t.run s with
    | (s1, none) => runsOk ts s1
    | (_, some _) => none

/-! ## Filesystem model and `fsutils` primitives

The `fsutils` package is not part of this checkout; its primitives are
modelled from the spec.  The filesystem is an association list from
path to content; a directory is an entry whose content is empty. -/

/-- A filesystem state: path to byte content. -/
abbrev FSm : Type := List (String × String)

/-- Modelled from the spec: `fsutils.MakeDir` creates the directory if
absent and is a no-op when it already exists (§4.4 CreateRoot). -/
def makeDir (fs : FSm) (path : String) : FSm :=
  match lookupAL fs path with
  | some _ => fs
  | none => insertAL fs path ""

/-- Modelled from the spec: `fsutils.RemoveDir` recursively removes the
directory: the entry itself and every entry below it (§4.4 undo). -/
def removeDir (fs : FSm) (path : String) : FSm :=
  (fs : List (String × String)).filter
    (fun p => !(p.1 = path || (path ++ "/").isPrefixOf p.1))

/-- Modelled from the spec: `os.WriteFile` / `fsutils.CopyFileContent`
overwrite the target path with the given bytes, creating it if absent. -/
def fsWrite (fs : FSm) (path content : String) : FSm :=
  insertAL fs path content

/-- Modelled from the spec: `fsutils.FS.CopyFile` reads the template
store at the source path (an error when the file is absent) and writes
its bytes to the target path. -/
def copyFile (tmpls : List (String × String)) (src tgt : String) (fs : FSm) :
    Except String FSm :=
  match lookupAL tmpls src with
  | none => .error "file does not exist"
  | some content => .ok (fsWrite fs tgt content)

/-- Modelled from the spec: the `walk` of `fsutils.FS.Execute` visits
every template-store file under `srcDir` and copies it below `tgtDir`
(§4.1). -/
def copyDirAll (tmpls : List (String × String)) (srcDir tgtDir : String)
    (fs : FSm) : FSm :=
  tmpls.foldl
    (fun acc p =>
      if (srcDir ++ "/").isPrefixOf p.1 then
        fsWrite acc (tgtDir ++ "/" ++ (p.1.drop (srcDir ++ "/").length)) p.2
      else acc)
    fs

/-! ## The concrete scaffolding tasks over (project, filesystem) state -/

/-- The state threaded through a scaffold invocation: the shared
`project` (mutated through a pointer in Go) and the filesystem. -/
structure ScaffoldState where
  proj : Project
  fs : FSm
  deriving DecidableEq

/-- The `MakeDir` task of `create.go`: forward `fsutils.MakeDir`,
compensating `fsutils.RemoveDir`. -/
def makeDirTaskS (path : String) : Task ScaffoldState :=
  { run := fun st => ({ st with fs := makeDir st.fs path }, none)
    undo := fun st => ({ st with fs := removeDir st.fs path }, none) }

/-- The forward action of `CreateSourceFiles` (`create.go`): create
`rootDir/src`, replace the project's entries by a fresh map holding
only `"main"`, copy the main-body template (failing when the store
lacks it), then copy every file under the type's `src` subtree. -/
def createSourceFilesRun (tmpls : List (String × String))
    (st : ScaffoldState) : ScaffoldState × Option String :=
  let sourceDirPath := joinPath st.proj.ext.rootDir "src"
  let fs1 := makeDir st.fs sourceDirPath
  let mainRel := joinPath "src" (getMainFileName st.proj)
  let proj1 :=
    { st.proj with ext := { st.proj.ext with entries := insertAL [] "main" mainRel } }
  match copyFile tmpls (joinPath st.proj.ext.type_ (getMainTemplate st.proj))
      (joinPath st.proj.ext.rootDir mainRel) fs1 with
  | .error e => ({ proj := proj1, fs := fs1 }, some e)
  | .ok fs2 =>
    ({ proj := proj1
       fs := copyDirAll tmpls (joinPath st.proj.ext.type_ "src") sourceDirPath fs2 },
     none)

/-- The `CreateSourceFiles` task: its undo removes `rootDir/src`
recursively. -/
def createSourceFilesTaskS (tmpls : List (String × String)) :
    Task ScaffoldState :=
  { run := createSourceFilesRun tmpls
    undo := fun st =>
      ({ st with fs := removeDir st.fs (joinPath st.proj.ext.rootDir "src") }, none) }

/-! ## `MergeYamlAndJsonFiles` (`create.go`) -/

/-- The `files` record of `create.go`: a snapshot of a pre-existing
manifest, kept for rollback. -/
structure files where
  content : String
  filePath : String
  deriving DecidableEq, Repr

/-- The `Undo` closure of `MergeYamlAndJsonFiles` (`create.go`): the
loop body over `filesToRestore` writes the snapshot back and then
immediately returns, so at most the head of the list is processed. -/
def mergeManifestsUndo (filesToRestore : List files) (fs : FSm) :
    FSm × Option String :=
  match filesToRestore with
  | [] => (fs, none)
  | f :: _ => (fsWrite fs f.filePath f.content, none)

/-- `mergeYaml` from `create.go`: `strings.Replace(new, "---", "", 1)`
appended after the original bytes. -/
def mergeYaml (originalContent newContent : List Char) : List Char :=
  originalContent ++ replaceFirst newContent "---".toList []

/-- The per-file body of `MergeYamlAndJsonFiles.Run` for a `.yml`
manifest: if the target does not exist, copy the template content
verbatim (recording nothing); otherwise snapshot the original bytes
into `filesToRestore` (a Go `append`, hence at the tail) and write the
`mergeYaml` result. -/
def mergeManifestYamlStep (tmplContent targetPath : String)
    (st : FSm × List files) : FSm × List files :=
  match lookupAL st.1 targetPath with
  | none => (insertAL st.1 targetPath tmplContent, st.2)
  | some oldContent =>
    (insertAL st.1 targetPath
      (String.mk (mergeYaml oldContent.toList tmplContent.toList)),
     st.2 ++ [{ content := oldContent, filePath := targetPath }])

/-- `MergeYamlAndJsonFiles.Run` restricted to a walk over `.yml`
manifests: fold the per-file step over the visited
(template content, target path) pairs. -/
def runManifestYamlSteps (steps : List (String × String)) (fs : FSm) :
    FSm × List files :=
  steps.foldl (fun st p => mergeManifestYamlStep p.1 p.2 st) (fs, [])

/-! ## The JSON merge (`mergeJson`, `packageJSON` of `create.go`) -/

/-- A top-level JSON value as far as `packageJSON` is concerned: a
string, a string-to-string object, or `null`. -/
inductive JVal where
  | jstr : String → JVal
  | jmap : List (String × String) → JVal
  | jnull : JVal
  deriving DecidableEq, Repr

/-- A JSON object document: field name to value (keys distinct, as
produced by a JSON parser). -/
abbrev JObj : Type := List (String × JVal)

/-- Field lookup in a JSON object. -/
def lookupJ : JObj → String → Option JVal
  | [], _ => none
  | (k, v) :: rest, key => if k = key then some v else lookupJ rest key

/-- The `packageJSON` struct of `create.go`.  Absent maps decode to Go
`nil`, modelled as `none`; an absent license decodes to `""`. -/
structure packageJSON where
  devDependencies : Option (List (String × String))
  dependencies : Option (List (String × String))
  license : String
  scripts : Option (List (String × String))
  deriving DecidableEq, Repr

/-- `json.Unmarshal` of one string-map field: absent or `null` gives a
`nil` map, a string is a type mismatch. -/
def getMapField (o : JObj) (k : String) :
    Except String (Option (List (String × String))) :=
  match lookupJ o k with
  | none => .ok none
  | some .jnull => .ok none
  | some (.jmap m) => .ok (some m)
  | some (.jstr _) => .error "cannot unmarshal"

/-- `json.Unmarshal` of one string field: absent or `null` gives the
zero value `""`, an object is a type mismatch. -/
def getStrField (o : JObj) (k : String) : Except String String :=
  match lookupJ o k with
  | none => .ok ""
  | some .jnull => .ok ""
  | some (.jstr s) => .ok s
  | some (.jmap _) => .error "cannot unmarshal"

/-- `json.Unmarshal(bytes, &packageJSON{})`: only the four declared
fields are decoded; every other top-level field of the document is
dropped. -/
def unmarshalPackage (o : JObj) : Except String packageJSON := do
  let devDeps ← getMapField o "devDependencies"
  let deps ← getMapField o "dependencies"
  let license ← getStrField o "license"
  let scripts ← getMapField o "scripts"
  .ok { devDependencies := devDeps, dependencies := deps
        license := license, scripts := scripts }

/-- Sequential Go map assignments `d[k] = v` for each pair of `l`. -/
def insFold (d : List (String × String)) (l : List (String × String)) :
    List (String × String) :=
  l.foldl (fun m q => insertAL m q.1 q.2) d

/-- The Go loop `for k, v := range src { dst[k] = v }` over map fields:
zero iterations when the source map is `nil` or empty; otherwise each
assignment requires the destination map to be non-`nil` — assigning
into a `nil` map is a runtime panic, modelled as an error. -/
def insertAll (dst src : Option (List (String × String))) :
    Except String (Option (List (String × String))) :=
  match src with
  | none => .ok dst
  | some [] => .ok dst
  | some (p :: rest) =>
    match dst with
    | none => .error "assignment to entry in nil map"
    | some d => .ok (some (insFold d (p :: rest)))

/-- `json.Marshal` of one map-valued field: a `nil` map serializes as
`null`. -/
def marshalMapField : Option (List (String × String)) → JVal
  | none => JVal.jnull
  | some m => JVal.jmap m

/-- `json.Marshal` of a `packageJSON` value: exactly the four struct
fields, in declaration order. -/
def marshalPackage (p : packageJSON) : JObj :=
  [("devDependencies", marshalMapField p.devDependencies),
   ("dependencies", marshalMapField p.dependencies),
   ("license", JVal.jstr p.license),
   ("scripts", marshalMapField p.scripts)]

/-- `mergeJson` from `create.go`, at the JSON-object level: unmarshal
both documents into `packageJSON`, run the two key-insertion loops,
re-marshal.  `fsutils.FormatJSON` (not in this checkout — modelled from
the spec) only re-indents and stably orders the serialized text, so at
the object level it is the identity. -/
def mergeJsonDoc (orig new : JObj) : Except String JObj := do
  let result ← unmarshalPackage orig
  let newResult ← unmarshalPackage new
  let deps ← insertAll result.dependencies newResult.dependencies
  let devDeps ← insertAll result.devDependencies newResult.devDependencies
  .ok (marshalPackage
    { result with dependencies := deps, devDependencies := devDeps })

/-- The string-map behind the `"dependencies"` (or any map-valued)
field of a serialized document; `[]` when absent or `null`. -/
def depsAL (o : JObj) (k : String) : List (String × String) :=
  match lookupJ o k with
  | some (.jmap m) => m
  | _ => []

/-! ## `CLI.create` (`main.go`) -/

/-- The `core.Extension` literal built by `CLI.create`:
`args = [type, rendererName, templateId, rootDir]`, with the defaults
`buildDir = "build"` and an empty entries map. -/
def mkExtension (args : List String) : Extension :=
  { type_ := args.getD 0 ""
    rendererName := args.getD 1 ""
    template := args.getD 2 ""
    rootDir := args.getD 3 ""
    buildDir := "build"
    entries := [] }

/-- `CLI.create` from `main.go`, parameterized by the effect of
`create.NewExtensionProject` on the filesystem: when fewer or more than
four arguments are supplied it panics with the validation message
before building the extension or touching the filesystem; otherwise it
scaffolds, turning a scaffold error into the create-failure panic. -/
def cliCreate (scaffold : Extension → FSm → FSm × Option String)
    (args : List String) (fs : FSm) : FSm × Option String :=
  if args.length ≠ 4 then
    (fs, some "create requires a target path, a template and a renderer")
  else
    match scaffold (mkExtension args) fs with
    | (fs2, some _) => (fs2, some "failed to create a new extension")
    | (fs2, none) => (fs2, none)

/-! ## Lemmas about the `Task` / `Process` engine -/

/-- Unfolding `runsOk` on a succeeding head task. -/
lemma runsOk_cons_ok {σ : Type} {u : Task σ} {s s2 : σ} (ts : List (Task σ))
    (hu : u.run s = (s2, none)) : runsOk (u :: ts) s = runsOk ts s2 := by
  simp [runsOk, hu]

/-- Unfolding `runsOk` on a failing head task. -/
lemma runsOk_cons_err {σ : Type} {u : Task σ} {s s2 : σ} {e : String}
    (ts : List (Task σ)) (hu : u.run s = (s2, some e)) :
    runsOk (u :: ts) s = none := by
  simp [runsOk, hu]

/-- Unfolding the `Process.Run` loop on a succeeding head task. -/
lemma processRunAux_cons_ok {σ : Type} {u : Task σ} {s s2 : σ}
    (all ts : List (Task σ)) (k : Nat) (status : List String)
    (hu : u.run s = (s2, none)) :
    processRunAux all (u :: ts) k status s
      = processRunAux all ts (k + 1) (status.set k "success") s2 := by
  simp [processRunAux, hu]

/-- Unfolding the `Process.Run` loop on a failing head task. -/
lemma processRunAux_cons_err {σ : Type} {u : Task σ} {s s2 : σ} {e : String}
    (all ts : List (Task σ)) (k : Nat) (status : List String)
    (hu : u.run s = (s2, some e)) :
    processRunAux all (u :: ts) k status s
      = ((processUndo all (status.set k "fail") s2).1, some e) := by
  simp [processRunAux, hu]

/-- The element right after a prefix of an append. -/
lemma list_get_append_len {α : Type} :
    ∀ (l1 : List α) (t : α) (l2 : List α),
      (l1 ++ t :: l2)[l1.length]? = some t := by
  intro l1 t l2
  induction l1 with
  | nil => simp
  | cons a l ih => simpa using ih

/-- A run of pending statuses contains no `"fail"` entry. -/
lemma lastFailIdx_replicate_pending (r : Nat) :
    lastFailIdx (List.replicate r "") = none := by
  induction r with
  | zero => rfl
  | succ n ih => simp [List.replicate_succ, lastFailIdx, ih]

/-- The reverse scan of `Process.Undo` stops at the single `"fail"`
entry of a status slice of shape success-prefix, fail, pending-suffix. -/
lemma lastFailIdx_spec (m r : Nat) :
    lastFailIdx (List.replicate m "success" ++ "fail" :: List.replicate r "")
      = some m := by
  induction m with
  | zero => simp [lastFailIdx, lastFailIdx_replicate_pending r]
  | succ n ih => simp [List.replicate_succ, lastFailIdx, ih]

/-- Setting the first pending slot of a success-prefix status slice. -/
lemma set_replicate_append (a : String) :
    ∀ (m r : Nat),
      (List.replicate m "success" ++ List.replicate (r + 1) "").set m a
        = List.replicate m "success" ++ a :: List.replicate r "" := by
  intro m
  induction m with
  | zero => intro r; simp [List.replicate_succ]
  | succ n ih => intro r; simp [List.replicate_succ, ih r]

/-- Absorbing a freshly set success slot into the success prefix. -/
lemma replicate_succ_append {α : Type} (a : α) (m : Nat) (l : List α) :
    List.replicate m a ++ a :: l = List.replicate (m + 1) a ++ l := by
  rw [List.replicate_succ', List.append_assoc]
  rfl

/-- The failure case of the `Process.Run` loop: when the tasks before
`t` all succeed and `t` fails, the loop ends in the state produced by
`t`'s own undo (and only that undo), carrying `t`'s error. -/
lemma processRunAux_fail {σ : Type} (t : Task σ) (L2 : List (Task σ))
    (all : List (Task σ)) (e : String) (s1 sf : σ)
    (ht : t.run s1 = (sf, some e)) :
    ∀ (L1 : List (Task σ)) (k rest : Nat) (s : σ),
      runsOk L1 s = some s1 →
      all[k + L1.length]? = some t →
      rest = L1.length + L2.length →
      processRunAux all (L1 ++ t :: L2) k
          (List.replicate k "success" ++ List.replicate (rest + 1) "") s
        = ((t.undo sf).1, some e) := by
  intro L1
  induction L1 with
  | nil =>
    intro k rest s hrun hget hrest
    have hs : s = s1 := by simpa [runsOk] using hrun
    subst hs
    rw [List.nil_append,
      processRunAux_cons_err all L2 k _ ht,
      set_replicate_append "fail" k rest]
    have hget0 : all[k]? = some t := by simpa using hget
    simp [processUndo, lastFailIdx_spec, hget0]
  | cons u L1x ih =>
    intro k rest s hrun hget hrest
    rcases hu : u.run s with ⟨s2, oe⟩
    cases oe with
    | some e2 =>
      rw [runsOk_cons_err L1x hu] at hrun
      exact absurd hrun (by simp)
    | none =>
      rw [runsOk_cons_ok L1x hu] at hrun
      obtain ⟨rx, hx⟩ : ∃ rx, rest = rx + 1 :=
        ⟨L1x.length + L2.length, by simp [hrest, List.length_cons]; omega⟩
      have hrx : rx = L1x.length + L2.length := by
        simp [List.length_cons] at hrest; omega
      subst hx
      rw [List.cons_append,
        processRunAux_cons_ok all (L1x ++ t :: L2) k _ hu,
        set_replicate_append "success" k (rx + 1),
        replicate_succ_append "success" k _]
      have hget2 : all[k + 1 + L1x.length]? = some t := by
        have : k + 1 + L1x.length = k + (u :: L1x).length := by
          simp [List.length_cons]; omega
        rw [this]; exact hget
      exact ih (k + 1) rx s2 hrun hget2 hrx

/-- `Process.Run` on a pipeline whose tasks before `t` succeed and
whose task `t` fails: the result is `t`'s error together with the
state produced by `t`'s undo alone. -/
lemma processRun_fail {σ : Type} (L1 : List (Task σ)) (t : Task σ)
    (L2 : List (Task σ)) (s s1 sf : σ) (e : String)
    (h1 : runsOk L1 s = some s1) (h2 : t.run s1 = (sf, some e)) :
    processRun (L1 ++ t :: L2) s = ((t.undo sf).1, some e) := by
  have hget : (L1 ++ t :: L2)[0 + L1.length]? = some t := by
    simpa using list_get_append_len L1 t L2
  have h := processRunAux_fail t L2 (L1 ++ t :: L2) e s1 sf h2 L1 0
    (L1.length + L2.length) s h1 hget rfl
  have hlen : (L1 ++ t :: L2).length = L1.length + L2.length + 1 := by
    simp [List.length_append, List.length_cons]; omega
  simpa [processRun, hlen] using h

/-- When `Process.Run` succeeds, its final state is the sequential
composition of every task's forward action. -/
lemma processRunAux_ok {σ : Type} :
    ∀ (L all : List (Task σ)) (k : Nat) (status : List String) (s s2 : σ),
      processRunAux all L k status s = (s2, none) → runsOk L s = some s2 := by
  intro L
  induction L with
  | nil =>
    intro all k status s s2 h
    simp [processRunAux] at h
    simp [runsOk, h]
  | cons t ts ih =>
    intro all k status s s2 h
    rcases hu : t.run s with ⟨s1, oe⟩
    cases oe with
    | none =>
      rw [processRunAux_cons_ok all ts k status hu] at h
      rw [runsOk_cons_ok ts hu]
      exact ih _ _ _ _ _ h
    | some e =>
      rw [processRunAux_cons_err all ts k status hu] at h
      simp at h

/-- `Process.Run` success characterization. -/
lemma processRun_ok {σ : Type} (tasks : List (Task σ)) (s s2 : σ)
    (h : processRun tasks s = (s2, none)) : runsOk tasks s = some s2 :=
  processRunAux_ok tasks tasks 0 _ s s2 h

/-! ## Concrete pipelines used as evaluation inputs -/

/-- A task over a trace state: its forward and compensating actions
append their names to the trace, so the trace records the exact call
order of the engine. -/
def logRunTask (name : String) (ok : Bool) : Task (List String) :=
  { run := fun s => (s ++ ["run " ++ name], if ok then none else some "boom")
    undo := fun s => (s ++ ["undo " ++ name], none) }

/-- A failing task whose undo also fails. -/
def undoFailTask : Task (List String) :=
  { run := fun s => (s ++ ["run u"], some "primary")
    undo := fun s => (s, some "undo broke") }

/-- A scaffold request whose template store will be empty, so
`CreateSourceFiles` fails at the main-template copy. -/
def extNoTmpl : Extension :=
  { type_ := "checkout", rendererName := "r", template := "plain"
    rootDir := "root", buildDir := "build", entries := [] }

/-- Initial state for the failing scaffold: empty filesystem. -/
def stNoTmpl : ScaffoldState := { proj := newProject extNoTmpl, fs := [] }

/-- The first two pipeline tasks bound to the empty template store. -/
def pipelineNoTmpl : List (Task ScaffoldState) :=
  [makeDirTaskS "root", createSourceFilesTaskS []]

/-! ## Claim C1 -/

/-- Claim C1 counterexample: with an empty template store the second
task fails, `Run` returns the failure, yet the filesystem still
contains the root directory created by the first task — it is not
byte-for-byte identical to its pre-run state. -/
theorem pipelineRun_failure_not_atomic :
    (processRun pipelineNoTmpl stNoTmpl).2 = some "file does not exist" ∧
    (processRun pipelineNoTmpl stNoTmpl).1.fs = [("root", "")] ∧
    (processRun pipelineNoTmpl stNoTmpl).1.fs ≠ stNoTmpl.fs := by
  decide

/-- Claim C1 (amended): if `Pipeline.Run` returns success the final
state is the sequential effect of every task's forward action; if a
task's forward action fails, `Run` returns that failure and the final
state is the failed task's undo applied to the partially-mutated state
— the effects of previously succeeded tasks are not reverted. -/
theorem pipelineRun_success_and_failure_semantics {σ : Type} :
    (∀ (tasks : List (Task σ)) (s s2 : σ),
        processRun tasks s = (s2, none) → runsOk tasks s = some s2) ∧
    (∀ (L1 : List (Task σ)) (t : Task σ) (L2 : List (Task σ))
        (s s1 sf : σ) (e : String),
        runsOk L1 s = some s1 → t.run s1 = (sf, some e) →
        processRun (L1 ++ t :: L2) s = ((t.undo sf).1, some e)) :=
  ⟨fun tasks s s2 h => processRun_ok tasks s s2 h,
   fun L1 t L2 s s1 sf e h1 h2 => processRun_fail L1 t L2 s s1 sf e h1 h2⟩

/-- Witness for claim C1's theorem at a concrete one-task pipeline. -/
theorem pipelineRun_semantics_witness :
    processRun [logRunTask "w" false] ([] : List String)
      = (((logRunTask "w" false).undo ["run w"]).1, some "boom") :=
  (pipelineRun_success_and_failure_semantics (σ := List String)).2
    [] (logRunTask "w" false) [] [] [] ["run w"] "boom" rfl rfl

/-! ## Claim C2 -/

/-- Claim C2 counterexample: task `a` succeeds, task `b` fails; the
recorded call trace is exactly `run a, run b, undo b` — the rollback
never invoked the undo of the succeeded task `a`. -/
theorem rollback_skips_succeeded_tasks :
    processRun [logRunTask "a" true, logRunTask "b" false] ([] : List String)
        = (["run a", "run b", "undo b"], some "boom") ∧
    "undo a" ∉ (processRun [logRunTask "a" true, logRunTask "b" false]
        ([] : List String)).1 := by
  decide

/-- Claim C2 (amended): when a task fails after a succeeded prefix, the
rollback phase invokes only the failed task's own undo; no succeeded
task is undone, so the final state is the failed task's undo applied to
the partially-mutated state. -/
theorem rollback_undoes_only_failed_task {σ : Type} (L1 : List (Task σ))
    (t : Task σ) (L2 : List (Task σ)) (s s1 sf : σ) (e : String)
    (h1 : runsOk L1 s = some s1) (h2 : t.run s1 = (sf, some e)) :
    (processRun (L1 ++ t :: L2) s).1 = (t.undo sf).1 := by
  rw [processRun_fail L1 t L2 s s1 sf e h1 h2]

/-- Witness for claim C2's theorem at a concrete two-task pipeline. -/
theorem rollback_undoes_only_failed_task_witness :
    (processRun [logRunTask "a" true, logRunTask "b" false]
        ([] : List String)).1
      = ((logRunTask "b" false).undo ["run a", "run b"]).1 :=
  rollback_undoes_only_failed_task [logRunTask "a" true] (logRunTask "b" false)
    [] [] ["run a"] ["run a", "run b"] "boom" rfl rfl

/-! ## Claim C7 -/

/-- Claim C7: whenever a task fails, `Pipeline.Run` returns that task's
error as its result; rollback errors are only printed and never replace
or suppress the primary error. -/
theorem run_returns_primary_error {σ : Type} (L1 : List (Task σ))
    (t : Task σ) (L2 : List (Task σ)) (s s1 sf : σ) (e : String)
    (h1 : runsOk L1 s = some s1) (h2 : t.run s1 = (sf, some e)) :
    (processRun (L1 ++ t :: L2) s).2 = some e := by
  rw [processRun_fail L1 t L2 s s1 sf e h1 h2]

/-- Witness for claim C7's theorem: the failing task's undo itself
fails, yet `Run` still returns the primary error. -/
theorem run_returns_primary_error_witness :
    (processRun [undoFailTask] ([] : List String)).2 = some "primary" :=
  run_returns_primary_error [] undoFailTask [] [] [] ["run u"] "primary"
    rfl rfl

/-! ## Association-list and byte-string lemmas -/

/-- Lookup after a Go map assignment: the assigned key reads the new
value, every other key is untouched. -/
lemma lookupAL_insertAL (fs : List (String × String)) (k v key : String) :
    lookupAL (insertAL fs k v) key
      = if k = key then some v else lookupAL fs key := by
  induction fs with
  | nil => simp [insertAL, lookupAL]
  | cons p rest ih =>
    rcases p with ⟨k1, v1⟩
    by_cases h1 : k1 = k
    · subst h1
      by_cases h2 : k1 = key <;> simp [insertAL, lookupAL, h2]
    · by_cases h2 : k1 = key
      · subst h2
        have hk : ¬(k = k1) := fun h => h1 h.symm
        simp [insertAL, lookupAL, h1, hk]
      · simp [insertAL, lookupAL, h1, h2, ih]

/-- A list is a (boolean) prefix of itself followed by anything. -/
lemma isPrefixOf_append_self (l1 l2 : List Char) :
    l1.isPrefixOf (l1 ++ l2) = true := by
  induction l1 with
  | nil => simp [List.isPrefixOf]
  | cons c cs ih => simp [List.isPrefixOf, ih]

/-- `strings.Replace(s, pat, rep, 1)` on a string that starts with the
(non-empty) pattern: the pattern is replaced and the remainder kept. -/
lemma replaceFirst_of_leading (pat rest rep : List Char) (hp : pat ≠ []) :
    replaceFirst (pat ++ rest) pat rep = rep ++ rest := by
  cases pat with
  | nil => exact absurd rfl hp
  | cons c cs =>
    show replaceFirst (c :: (cs ++ rest)) (c :: cs) rep = rep ++ rest
    rw [replaceFirst]
    rw [show c :: (cs ++ rest) = (c :: cs) ++ rest from rfl,
      isPrefixOf_append_self (c :: cs) rest]
    simp [List.drop_left]

/-! ## Claim C4 -/

/-- Claim C4 counterexample: merging original `"x: 1\n"` with fragment
`"---\ny: 2\n"` does not give `"x: 1\ny: 2\n"`: only the three marker
characters are removed, so the newline that followed the marker
survives and the result is `"x: 1\n\ny: 2\n"`. -/
theorem mergeYaml_example_keeps_newline :
    mergeYaml "x: 1\n".toList "---\ny: 2\n".toList ≠ "x: 1\ny: 2\n".toList ∧
    mergeYaml "x: 1\n".toList "---\ny: 2\n".toList = "x: 1\n\ny: 2\n".toList := by
  decide

/-- Claim C4 (amended): the YAML merge removes the first occurrence of
`"---"` anywhere in the fragment (only the three marker characters, so
a newline after the marker is kept) and appends the remainder after the
original bytes; on the spec's example inputs the result is
`"x: 1\n\ny: 2\n"`, and a marker in the middle of the fragment is
removed as well. -/
theorem mergeYaml_strips_first_marker :
    (∀ (orig rest : List Char),
        mergeYaml orig ("---".toList ++ rest) = orig ++ rest) ∧
    mergeYaml "x: 1\n".toList "---\ny: 2\n".toList = "x: 1\n\ny: 2\n".toList ∧
    mergeYaml "a\n".toList "b---c".toList = "a\nbc".toList := by
  refine ⟨?_, by decide, by decide⟩
  intro orig rest
  unfold mergeYaml
  rw [replaceFirst_of_leading "---".toList rest [] (by decide)]
  simp

/-! ## Claim C3 -/

/-- The two `.yml` manifests of the rollback scenario. -/
def fsManifests : FSm := [("a.yml", "A"), ("b.yml", "B")]

/-- Merging two embedded fragments into the two pre-existing manifests:
both originals are snapshotted into `filesToRestore`. -/
def mergedManifests : FSm × List files :=
  runManifestYamlSteps [("x", "a.yml"), ("y", "b.yml")] fsManifests

/-- Claim C3 counterexample: after merging into two pre-existing
manifests (both snapshots recorded), the undo restores only the first
snapshot: `a.yml` returns to its original bytes while `b.yml` keeps the
merged content `"By"` instead of its snapshot `"B"`. -/
theorem mergeManifests_undo_restores_only_first :
    mergedManifests.2
      = [{ content := "A", filePath := "a.yml" },
         { content := "B", filePath := "b.yml" }] ∧
    lookupAL ((mergeManifestsUndo mergedManifests.2 mergedManifests.1).1)
        "a.yml" = some "A" ∧
    lookupAL ((mergeManifestsUndo mergedManifests.2 mergedManifests.1).1)
        "b.yml" = some "By" ∧
    some "By" ≠ some ("B" : String) := by
  decide

/-- Claim C3 (amended): the undo of `MergeYamlAndJsonFiles` overwrites
only the head of the recorded snapshot list with its original bytes;
every other path of the filesystem — in particular every later
snapshot's target and every newly created file (which the task never
records) — is left exactly as it was. -/
theorem mergeManifests_undo_restores_head (f : files) (rest : List files)
    (fs : FSm) :
    lookupAL ((mergeManifestsUndo (f :: rest) fs).1) f.filePath
        = some f.content ∧
    ∀ p, p ≠ f.filePath →
      lookupAL ((mergeManifestsUndo (f :: rest) fs).1) p = lookupAL fs p := by
  constructor
  · simp [mergeManifestsUndo, fsWrite, lookupAL_insertAL]
  · intro p hp
    have hne : ¬(f.filePath = p) := fun h => hp h.symm
    simp [mergeManifestsUndo, fsWrite, lookupAL_insertAL, hne]

/-- Witness for claim C3's theorem: with two recorded snapshots, the
second snapshot's target keeps its merged content after the undo. -/
theorem mergeManifests_undo_restores_head_witness :
    lookupAL ((mergeManifestsUndo
        [{ content := "A", filePath := "a.yml" },
         { content := "B", filePath := "b.yml" }]
        [("a.yml", "Ax"), ("b.yml", "By")]).1) "b.yml" = some "By" :=
  (mergeManifests_undo_restores_head
      { content := "A", filePath := "a.yml" }
      [{ content := "B", filePath := "b.yml" }]
      [("a.yml", "Ax"), ("b.yml", "By")]).2 "b.yml" (by decide)

/-! ## Claim C6 -/

/-- Claim C6: the entry-filename table.  For each of the four
combinations of the derived `React` / `TypeScript` flags (substring
containment of `"react"` / `"typescript"` in the template id), the
produced entry filename matches the spec's table, `index.js` for React
without TypeScript included. -/
theorem entry_filename_table (e : Extension) :
    (((newProject e).react = true ∧ (newProject e).typescript = true) →
        getMainFileName (newProject e) = "index.tsx") ∧
    (((newProject e).react = true ∧ (newProject e).typescript = false) →
        getMainFileName (newProject e) = "index.js") ∧
    (((newProject e).react = false ∧ (newProject e).typescript = true) →
        getMainFileName (newProject e) = "index.ts") ∧
    (((newProject e).react = false ∧ (newProject e).typescript = false) →
        getMainFileName (newProject e) = "index.js") := by
  refine ⟨?_, ?_, ?_, ?_⟩ <;> rintro ⟨h1, h2⟩ <;>
    simp [getMainFileName, h1, h2]

/-- A template id containing both `"typescript"` and `"react"`. -/
def extTsReact : Extension :=
  { type_ := "checkout-ui", rendererName := "react"
    template := "typescript-react", rootDir := "d", buildDir := "build"
    entries := [] }

/-- Witness for claim C6's theorem on the `typescript-react` template. -/
theorem entry_filename_table_witness :
    getMainFileName (newProject extTsReact) = "index.tsx" :=
  (entry_filename_table extTsReact).1 ⟨by decide, by decide⟩

/-! ## Claim C8 -/

/-- Claim C8: a create request with fewer than the four required values
fails with the validation message before the scaffolder runs — for any
scaffold effect whatsoever, the filesystem is returned unchanged. -/
theorem create_validates_before_fs
    (scaffold : Extension → FSm → FSm × Option String)
    (args : List String) (fs : FSm) (h : args.length < 4) :
    cliCreate scaffold args fs
      = (fs, some "create requires a target path, a template and a renderer") := by
  unfold cliCreate
  rw [if_pos (by omega)]

/-- Witness for claim C8's theorem: two arguments instead of four. -/
theorem create_validates_before_fs_witness :
    cliCreate (fun _ fs => (fs, none)) ["checkout-ui", "react"]
        [("keep", "k")]
      = ([("keep", "k")],
         some "create requires a target path, a template and a renderer") :=
  create_validates_before_fs (fun _ fs => (fs, none))
    ["checkout-ui", "react"] [("keep", "k")] (by decide)

/-! ## Claim C9 -/

/-- A caller-built descriptor that already carries an entries binding. -/
def extWithEntries : Extension :=
  { type_ := "checkout", rendererName := "r", template := "plain"
    rootDir := "root", buildDir := "build", entries := [("other", "x")] }

/-- Claim C9 counterexample: `CreateSourceFiles` allocates a fresh
entries map, so the caller-supplied binding `"other" ↦ "x"` is gone
after the step runs — it is not left unchanged. -/
theorem emitSourceFiles_discards_caller_entries :
    lookupAL ((createSourceFilesRun []
        { proj := newProject extWithEntries, fs := [] }).1).proj.ext.entries
        "other" = none ∧
    lookupAL (newProject extWithEntries).ext.entries "other" = some "x" := by
  decide

/-- Claim C9 (amended): the `CreateSourceFiles` step replaces the
descriptor's whole entries map by a fresh map containing only the
`"main"` binding — caller-supplied entries are discarded — and leaves
every other field of the descriptor unchanged, whether or not the step
succeeds. -/
theorem emitSourceFiles_replaces_entries (tmpls : List (String × String))
    (st : ScaffoldState) :
    ((createSourceFilesRun tmpls st).1).proj
      = { st.proj with ext :=
          { st.proj.ext with entries :=
              [("main", joinPath "src" (getMainFileName st.proj))] } } := by
  rcases h : copyFile tmpls (joinPath st.proj.ext.type_ (getMainTemplate st.proj))
      (joinPath st.proj.ext.rootDir (joinPath "src" (getMainFileName st.proj)))
      (makeDir st.fs (joinPath st.proj.ext.rootDir "src")) with e | fs2 <;>
    simp [createSourceFilesRun, h, insertAL]

/-! ## Lemmas about the JSON merge -/

/-- Folded map assignments do not touch keys outside the source list. -/
lemma lookupAL_insFold_not_mem :
    ∀ (l d : List (String × String)) (k : String),
      k ∉ l.map Prod.fst → lookupAL (insFold d l) k = lookupAL d k := by
  intro l
  induction l with
  | nil => intro d k _; rfl
  | cons q rest ih =>
    intro d k h
    simp only [List.map_cons, List.mem_cons, not_or] at h
    have hne : ¬(q.1 = k) := fun hq => h.1 hq.symm
    show lookupAL (insFold (insertAL d q.1 q.2) rest) k = lookupAL d k
    rw [ih _ k h.2, lookupAL_insertAL, if_neg hne]

/-- Folded map assignments: a key bound in the (duplicate-free) source
list reads its source value afterwards. -/
lemma lookupAL_insFold_mem :
    ∀ (l d : List (String × String)) (k v : String),
      (k, v) ∈ l → (l.map Prod.fst).Nodup →
      lookupAL (insFold d l) k = some v := by
  intro l
  induction l with
  | nil => intro d k v h _; cases h
  | cons q rest ih =>
    intro d k v hmem hnd
    simp only [List.map_cons, List.nodup_cons] at hnd
    rcases List.mem_cons.mp hmem with heq | htail
    · have hq1 : q.1 = k := by rw [← heq]
      have hknotin : k ∉ rest.map Prod.fst := by rw [← hq1]; exact hnd.1
      show lookupAL (insFold (insertAL d q.1 q.2) rest) k = some v
      rw [lookupAL_insFold_not_mem rest _ k hknotin, lookupAL_insertAL,
        if_pos hq1]
      rw [show q.2 = v from by rw [← heq]]
    · exact ih _ k v htail hnd.2

/-- Does the Go assignment loop avoid the nil-map panic? -/
def insertAllSucceeds (dst src : Option (List (String × String))) : Bool :=
  (src.getD []).isEmpty || dst.isSome

/-- The assignment loop completes exactly when the source map is
`nil`/empty or the destination map is non-`nil`. -/
lemma insertAll_isOk (dst src : Option (List (String × String))) :
    (∃ out, insertAll dst src = .ok out) ↔
      insertAllSucceeds dst src = true := by
  cases src with
  | none => simp [insertAll, insertAllSucceeds]
  | some l =>
    cases l with
    | nil => simp [insertAll, insertAllSucceeds]
    | cons p rest =>
      cases dst with
      | none => simp [insertAll, insertAllSucceeds]
      | some d => simp [insertAll, insertAllSucceeds]

/-- Lookup-level characterization of a successful assignment loop:
source keys read their source value (new wins), all other keys read the
destination. -/
lemma insertAll_ok_lookups (dst src out : Option (List (String × String)))
    (h : insertAll dst src = .ok out) :
    (∀ k v, (k, v) ∈ src.getD [] →
        ((src.getD []).map Prod.fst).Nodup →
        lookupAL (out.getD []) k = some v) ∧
    (∀ k, k ∉ (src.getD []).map Prod.fst →
        lookupAL (out.getD []) k = lookupAL (dst.getD []) k) := by
  cases src with
  | none =>
    simp only [insertAll] at h
    cases h
    exact ⟨fun k v hm => by simp at hm, fun k _ => rfl⟩
  | some l =>
    cases l with
    | nil =>
      simp only [insertAll] at h
      cases h
      exact ⟨fun k v hm => by simp at hm, fun k _ => rfl⟩
    | cons p rest =>
      cases dst with
      | none => simp [insertAll] at h
      | some d =>
        simp only [insertAll] at h
        cases h
        constructor
        · intro k v hm hnd
          exact lookupAL_insFold_mem (p :: rest) d k v hm hnd
        · intro k hk
          exact lookupAL_insFold_not_mem (p :: rest) d k hk

/-- Inversion of a successful `mergeJson`: both documents unmarshal,
both assignment loops succeed, and the result is the re-marshalled
original struct with its two map fields replaced by the loop results. -/
lemma mergeJsonDoc_ok_inv (dO dN r : JObj) (h : mergeJsonDoc dO dN = .ok r) :
    ∃ pO pN deps devDeps,
      unmarshalPackage dO = .ok pO ∧ unmarshalPackage dN = .ok pN ∧
      insertAll pO.dependencies pN.dependencies = .ok deps ∧
      insertAll pO.devDependencies pN.devDependencies = .ok devDeps ∧
      r = marshalPackage
        { pO with dependencies := deps, devDependencies := devDeps } := by
  unfold mergeJsonDoc at h
  cases hO : unmarshalPackage dO with
  | error e => simp [hO, Bind.bind, Except.bind] at h
  | ok pO =>
    simp only [hO, Bind.bind, Except.bind] at h
    cases hN : unmarshalPackage dN with
    | error e => simp [hN] at h
    | ok pN =>
      simp only [hN] at h
      cases hd : insertAll pO.dependencies pN.dependencies with
      | error e => simp [hd] at h
      | ok deps =>
        simp only [hd] at h
        cases hdd : insertAll pO.devDependencies pN.devDependencies with
        | error e => simp [hdd] at h
        | ok devDeps =>
          simp only [hdd, Except.ok.injEq] at h
          exact ⟨pO, pN, deps, devDeps, rfl, rfl, hd, hdd, h.symm⟩

/-- The `license` field of the marshalled merge result. -/
lemma lookupJ_marshal_license (p : packageJSON) :
    lookupJ (marshalPackage p) "license" = some (JVal.jstr p.license) := by
  simp +decide [marshalPackage, lookupJ]

/-- The `scripts` field of the marshalled merge result. -/
lemma lookupJ_marshal_scripts (p : packageJSON) :
    lookupJ (marshalPackage p) "scripts" = some (marshalMapField p.scripts) := by
  simp +decide [marshalPackage, lookupJ]

/-- Any key other than the four struct fields is absent from the
marshalled merge result. -/
lemma lookupJ_marshal_other (p : packageJSON) (k : String)
    (h1 : k ≠ "devDependencies") (h2 : k ≠ "dependencies")
    (h3 : k ≠ "license") (h4 : k ≠ "scripts") :
    lookupJ (marshalPackage p) k = none := by
  simp [marshalPackage, lookupJ, Ne.symm h1, Ne.symm h2, Ne.symm h3,
    Ne.symm h4]

/-- The dependencies map read back from the marshalled merge result. -/
lemma depsAL_marshal (p : packageJSON) :
    depsAL (marshalPackage p) "dependencies" = p.dependencies.getD [] := by
  cases hd : p.dependencies <;>
    simp +decide [depsAL, marshalPackage, lookupJ, marshalMapField, hd]

/-- The devDependencies map read back from the marshalled merge result. -/
lemma devDepsAL_marshal (p : packageJSON) :
    depsAL (marshalPackage p) "devDependencies"
      = p.devDependencies.getD [] := by
  cases hd : p.devDependencies <;>
    simp +decide [depsAL, marshalPackage, lookupJ, marshalMapField, hd]

/-! ## Claim C5 -/

/-- Claim C5 counterexample: merging an original document that lacks a
`license` field with a new document declaring `license: "MIT"` keeps
the zero value `""` — the new document's value is never used for
non-dependency fields, contradicting the claimed fallback. -/
theorem mergeJson_drops_new_scalar_fields :
    mergeJsonDoc [] [("license", JVal.jstr "MIT")]
      = .ok [("devDependencies", JVal.jnull), ("dependencies", JVal.jnull),
             ("license", JVal.jstr ""), ("scripts", JVal.jnull)] ∧
    JVal.jstr "" ≠ JVal.jstr "MIT" :=
  ⟨rfl, by decide⟩

/-- Claim C5 (amended): a successful JSON merge unions `dependencies`
(and `devDependencies`) key-wise with the new document's value winning
on a collision, but of the other top-level fields only `license` and
`scripts` survive — always with the original document's value (the zero
value when the original lacks them, never the new document's value) —
and every remaining top-level field of either document is dropped from
the result. -/
theorem mergeJson_field_semantics (dO dN r : JObj) (pO pN : packageJSON)
    (hO : unmarshalPackage dO = .ok pO) (hN : unmarshalPackage dN = .ok pN)
    (h : mergeJsonDoc dO dN = .ok r) :
    lookupJ r "license" = some (JVal.jstr pO.license) ∧
    lookupJ r "scripts" = some (marshalMapField pO.scripts) ∧
    (∀ k, k ≠ "devDependencies" → k ≠ "dependencies" → k ≠ "license" →
        k ≠ "scripts" → lookupJ r k = none) ∧
    (∀ k v, (k, v) ∈ pN.dependencies.getD [] →
        ((pN.dependencies.getD []).map Prod.fst).Nodup →
        lookupAL (depsAL r "dependencies") k = some v) ∧
    (∀ k, k ∉ (pN.dependencies.getD []).map Prod.fst →
        lookupAL (depsAL r "dependencies") k
          = lookupAL (pO.dependencies.getD []) k) ∧
    (∀ k v, (k, v) ∈ pN.devDependencies.getD [] →
        ((pN.devDependencies.getD []).map Prod.fst).Nodup →
        lookupAL (depsAL r "devDependencies") k = some v) ∧
    (∀ k, k ∉ (pN.devDependencies.getD []).map Prod.fst →
        lookupAL (depsAL r "devDependencies") k
          = lookupAL (pO.devDependencies.getD []) k) := by
  obtain ⟨pO2, pN2, deps, devDeps, hO2, hN2, hd, hdd, hr⟩ :=
    mergeJsonDoc_ok_inv dO dN r h
  rw [hO] at hO2
  rw [hN] at hN2
  cases hO2
  cases hN2
  subst hr
  refine ⟨?_, ?_, ?_, ?_, ?_, ?_, ?_⟩
  · exact lookupJ_marshal_license _
  · exact lookupJ_marshal_scripts _
  · intro k h1 h2 h3 h4
    exact lookupJ_marshal_other _ k h1 h2 h3 h4
  · intro k v hm hnd
    rw [depsAL_marshal]
    exact (insertAll_ok_lookups _ _ _ hd).1 k v hm hnd
  · intro k hk
    rw [depsAL_marshal]
    exact (insertAll_ok_lookups _ _ _ hd).2 k hk
  · intro k v hm hnd
    rw [devDepsAL_marshal]
    exact (insertAll_ok_lookups _ _ _ hdd).1 k v hm hnd
  · intro k hk
    rw [devDepsAL_marshal]
    exact (insertAll_ok_lookups _ _ _ hdd).2 k hk

/-- Witness for claim C5's theorem on the spec's example: original
`{dependencies: {a: "1"}}` merged with `{dependencies: {a: "2", b: "3"}}`
binds `b` to `"3"` in the result's dependencies map. -/
theorem mergeJson_field_semantics_witness :
    lookupAL (depsAL (marshalPackage
        { devDependencies := none
          dependencies := some [("a", "2"), ("b", "3")]
          license := "", scripts := none }) "dependencies") "b" = some "3" :=
  (mergeJson_field_semantics
      [("dependencies", JVal.jmap [("a", "1")])]
      [("dependencies", JVal.jmap [("a", "2"), ("b", "3")])]
      (marshalPackage
        { devDependencies := none
          dependencies := some [("a", "2"), ("b", "3")]
          license := "", scripts := none })
      { devDependencies := none, dependencies := some [("a", "1")]
        license := "", scripts := none }
      { devDependencies := none, dependencies := some [("a", "2"), ("b", "3")]
        license := "", scripts := none }
      rfl rfl rfl).2.2.2.1
    "b" "3" (by decide) (by decide)

/-! ## Claim C10 -/

/-- Claim C10 counterexample: when the original document has no
top-level `dependencies` object and the new document declares one
dependency, the key-insertion loop writes into Go's `nil` map — a
runtime panic, modelled as the merge faulting instead of returning a
merged document. -/
theorem mergeJson_nil_map_panic :
    mergeJsonDoc [] [("dependencies", JVal.jmap [("a", "1")])]
      = .error "assignment to entry in nil map" := rfl

/-- Claim C10 (amended): for well-formed inputs the JSON merge returns
a merged document exactly when each key-insertion loop is safe: its
source map is absent or empty, or its destination map is present.  In
particular an original lacking `dependencies` combined with a new
document declaring one faults. -/
theorem mergeJson_success_iff_no_nil_write (dO dN : JObj)
    (pO pN : packageJSON)
    (hO : unmarshalPackage dO = .ok pO) (hN : unmarshalPackage dN = .ok pN) :
    (∃ r, mergeJsonDoc dO dN = .ok r) ↔
      (insertAllSucceeds pO.dependencies pN.dependencies = true ∧
       insertAllSucceeds pO.devDependencies pN.devDependencies = true) := by
  constructor
  · rintro ⟨r, hr⟩
    obtain ⟨pO2, pN2, deps, devDeps, hO2, hN2, hd, hdd, _⟩ :=
      mergeJsonDoc_ok_inv dO dN r hr
    rw [hO] at hO2
    rw [hN] at hN2
    cases hO2
    cases hN2
    exact ⟨(insertAll_isOk _ _).mp ⟨deps, hd⟩,
      (insertAll_isOk _ _).mp ⟨devDeps, hdd⟩⟩
  · rintro ⟨h1, h2⟩
    obtain ⟨deps, hd⟩ := (insertAll_isOk _ _).mpr h1
    obtain ⟨devDeps, hdd⟩ := (insertAll_isOk _ _).mpr h2
    refine ⟨marshalPackage
      { pO with dependencies := deps, devDependencies := devDeps }, ?_⟩
    unfold mergeJsonDoc
    simp only [hO, hN, hd, hdd, Bind.bind, Except.bind]

/-- Witness for claim C10's theorem: both documents declare a
dependencies map, so the merge succeeds. -/
theorem mergeJson_success_iff_no_nil_write_witness :
    ∃ r, mergeJsonDoc [("dependencies", JVal.jmap [("a", "1")])]
        [("dependencies", JVal.jmap [("b", "2")])] = .ok r :=
  (mergeJson_success_iff_no_nil_write
      [("dependencies", JVal.jmap [("a", "1")])]
      [("dependencies", JVal.jmap [("b", "2")])]
      { devDependencies := none, dependencies := some [("a", "1")]
        license := "", scripts := none }
      { devDependencies := none, dependencies := some [("b", "2")]
        license := "", scripts := none }
      rfl rfl).mpr ⟨by decide, by decide⟩

end ShopifyScaffold
